import Mathlib

/-!
Verification development for the WindTest result-entry application
(`entry_app.py`).  The core under study is the reconciliation and upsert
engine: `fetch_existing_results_full`, `submit_results`,
`create_report_entry`, `send_notification`, `parse_input_labels` and the
batch / timed-test logic of `main`.

The embedding is shallow: the remote Notion store is a value of type
`Store` (lists of result records and report records plus a fresh-id
counter), every remote write is a pure transformation of that value, and
transport failures are injected through explicit oracle parameters
(`wfail`, `loadTrunc`, `rQueryOk`, `rw`) standing for the
exception/non-200 outcomes of the corresponding `requests` calls.
-/

/-- Outcome of one question, `정오` select in the Results table:
`correct` is the sentinel string `"정답"`, `incorrect` is `"오답"`
(entry_app.py lines 403, 731). -/
inductive Outcome
  | correct
  | incorrect
deriving DecidableEq, Repr

/-- One question of a test as produced by `fetch_questions`
(entry_app.py lines 202-211): opaque id, raw Notion title, canonical
display label, and its score (`배점`, defaulting to 0). -/
structure Question where
  id : String
  title : String
  label : String
  score : Nat
deriving DecidableEq, Repr

/-- One persisted row of the Results database (entry_app.py lines
443-453 list the fields written on create). `id` is the Notion page id,
modelled as a `Nat` drawn from the store's fresh counter. -/
structure ResultRecord where
  id : Nat
  title : String
  studentId : String
  questionId : String
  testName : String
  outcome : Outcome
  examDate : String
deriving DecidableEq, Repr

/-- One persisted row of the Report database (entry_app.py lines
312-323 list the fields written). `timeTaken` is `none` when the
`소요시간` property is absent from the page. -/
structure ReportRecord where
  id : Nat
  title : String
  studentId : String
  testName : String
  score : Nat
  status : String
  examDate : String
  teacherId : Option String
  timeTaken : Option Nat
deriving DecidableEq, Repr

/-- The remote store: the Results and Report databases plus a counter
producing fresh page ids. -/
structure Store where
  results : List ResultRecord
  reports : List ReportRecord
  nextId : Nat
deriving DecidableEq, Repr

/-- Python-dict insertion on an association list: replace the value at
an existing key in place, otherwise append the binding at the end.
Models `d[k] = v`. -/
def dictInsert {β : Type} : List (String × β) → String → β → List (String × β)
  | [], k, v => [(k, v)]
  | p :: m, k, v => if p.1 = k then (k, v) :: m else p :: dictInsert m k v

/-- Python-dict lookup on an association list; models `d.get(k)`. -/
def dictGet {β : Type} : List (String × β) → String → Option β
  | [], _ => none
  | p :: m, k => if p.1 = k then some p.2 else dictGet m k

/-- The records of the Results database matching the query filter of
`fetch_existing_results_full` (entry_app.py lines 486-501): student
relation contains `studentId` and `시험명` equals `testName`. -/
def matchingResults (st : Store) (studentId testName : String) : List ResultRecord :=
  st.results.filter (fun r => decide (r.studentId = studentId ∧ r.testName = testName))

/-- The dict-building loop of `fetch_existing_results_full`
(entry_app.py lines 525-531): `existing_map[q_id] = r["id"]` over the
fetched records in order, so the last record wins on a duplicate
question id. -/
def buildExistingMap (rs : List ResultRecord) : List (String × Nat) :=
  rs.foldl (fun m r => dictInsert m r.questionId r.id) []

/-- `fetch_existing_results_full` (entry_app.py lines 483-533).
`loadTrunc = none` models a run in which every page was fetched;
`loadTrunc = some k` models a transport error (`except: break`, line
521-522) after `k` records had been accumulated: the function silently
returns the map built from that prefix. -/
def fetchExistingResultsFull (st : Store) (studentId testName : String)
    (loadTrunc : Option Nat) : List (String × Nat) :=
  match loadTrunc with
  | none => buildExistingMap (matchingResults st studentId testName)
  | some k => buildExistingMap ((matchingResults st studentId testName).take k)

/-- `q_meta_map = {q["id"]: q for q in questions}`
(entry_app.py line 394). -/
def buildQMetaMap (questions : List Question) : List (String × Question) :=
  questions.foldl (fun m q => dictInsert m q.id q) []

/-- `q_title.split("_")[-1]` (entry_app.py line 437): the substring
after the last underscore, or the whole string when there is none. -/
def lastUnderscorePart (s : String) : String :=
  String.mk ((s.toList.reverse.takeWhile (fun c => c ≠ '_')).reverse)

/-- Score contribution of one submitted entry (entry_app.py lines
402-404): `total_score += q_meta_map.get(q_id, {}).get("score", 0)`
when the outcome is `"정답"`, with the defensive default 0 when the
question metadata is missing. -/
def outcomeScore (qm : List (String × Question)) (qid : String) (o : Outcome) : Nat :=
  if o = Outcome.correct then ((dictGet qm qid).map Question.score).getD 0 else 0

/-- `outcomeScore` uncurried over a submitted `(questionId, outcome)`
pair. -/
def scoreOfEntry (qm : List (String × Question)) (p : String × Outcome) : Nat :=
  outcomeScore qm p.1 p.2

/-- One write performed by the loop of `submit_results`: which question
it was for, update-vs-create, the target page id for an update, the
outcome written, and whether the remote call succeeded. -/
inductive WriteAction
  | updateW (questionId : String) (pageId : Nat) (outcome : Outcome) (ok : Bool)
  | createW (questionId : String) (outcome : Outcome) (ok : Bool)
deriving DecidableEq, Repr

/-- The question id a write action is for. -/
def WriteAction.qid : WriteAction → String
  | .updateW q _ _ _ => q
  | .createW q _ _ => q

/-- Whether the remote call of a write action succeeded. -/
def WriteAction.ok : WriteAction → Bool
  | .updateW _ _ _ b => b
  | .createW _ _ b => b

/-- Whether a write action is an update (as opposed to a create). -/
def WriteAction.isUpdate : WriteAction → Bool
  | .updateW _ _ _ _ => true
  | .createW _ _ _ => false

/-- Mutable state of the per-question loop of `submit_results`
(entry_app.py lines 388-398): the evolving store plus
`success_count`, `fail_count`, `total_score`, and a log of the writes
performed so far (the writes the code issues, in order). -/
structure LoopState where
  store : Store
  successCount : Nat
  failCount : Nat
  totalScore : Nat
  log : List WriteAction
deriving Repr

/-- One iteration of the loop of `submit_results` (entry_app.py lines
400-462) for the submitted pair `(qid, o)`: add the score contribution,
look `qid` up in the pre-fetched existing map, and either PATCH the
existing page or POST a new one; `fail` says whether that single remote
call failed (exception or non-200 status), in which case only
`fail_count` is incremented and the store is unchanged. -/
def processOne (emap : List (String × Nat)) (qm : List (String × Question))
    (studentId studentName testName examDate : String)
    (fail : Bool) (s : LoopState) (qid : String) (o : Outcome) : LoopState :=
  let s := { s with totalScore := s.totalScore + outcomeScore qm qid o }
  match dictGet emap qid with
  | some pid =>
      if fail then
        { s with failCount := s.failCount + 1, log := s.log ++ [.updateW qid pid o false] }
      else
        { s with
            store := { s.store with
              results := s.store.results.map (fun r =>
                if r.id = pid then { r with outcome := o, examDate := examDate } else r) }
            successCount := s.successCount + 1
            log := s.log ++ [.updateW qid pid o true] }
  | none =>
      if fail then
        { s with failCount := s.failCount + 1, log := s.log ++ [.createW qid o false] }
      else
        { s with
            store := { s.store with
              results := s.store.results ++
                [{ id := s.store.nextId
                   title := studentName ++ "-" ++ testName ++ "-" ++
                     lastUnderscorePart (((dictGet qm qid).map Question.title).getD "")
                   studentId := studentId
                   questionId := qid
                   testName := testName
                   outcome := o
                   examDate := examDate }]
              nextId := s.store.nextId + 1 }
            successCount := s.successCount + 1
            log := s.log ++ [.createW qid o true] }

/-- The loop `for i, (q_id, outcome) in enumerate(final_outcomes.items())`
of `submit_results` (entry_app.py lines 400-462); `wfail i` tells
whether the `i`-th remote write fails. -/
def submitLoop (emap : List (String × Nat)) (qm : List (String × Question))
    (studentId studentName testName examDate : String) (wfail : Nat → Bool) :
    Nat → LoopState → List (String × Outcome) → LoopState
  | _, s, [] => s
  | i, s, (qid, o) :: rest =>
      submitLoop emap qm studentId studentName testName examDate wfail (i + 1)
        (processOne emap qm studentId studentName testName examDate (wfail i) s qid o) rest

/-- Result of the single remote write of `create_report_entry`:
`ok` is a 200 response, `httpErr` a non-200 response (the remote did not
apply the write), `exn` a raised exception. -/
inductive RWrite
  | ok
  | httpErr
  | exn
deriving DecidableEq, Repr

/-- The property payload `props` built by `create_report_entry`
(entry_app.py lines 312-323). The `소요시간` key is added only when
`time_taken > 0`. -/
structure ReportProps where
  title : String
  studentId : String
  testName : String
  score : Nat
  status : String
  examDate : String
  teacherId : Option String
  timeTaken : Option Nat
deriving DecidableEq, Repr

/-- Builds the `props` dict of `create_report_entry` (entry_app.py
lines 312-323): title `f"{student_name} - {test_name}"`, status
unconditionally `"1. 입력 완료"`, people relation possibly empty, and
`소요시간` present exactly when `timeTaken > 0`. -/
def buildReportProps (studentId studentName testName : String) (score : Nat)
    (teacherId : Option String) (examDateStr : String) (timeTaken : Nat) : ReportProps :=
  { title := studentName ++ " - " ++ testName
    studentId := studentId
    testName := testName
    score := score
    status := "1. 입력 완료"
    examDate := examDateStr
    teacherId := teacherId
    timeTaken := if timeTaken > 0 then some timeTaken else none }

/-- Effect of PATCHing a report page with `props` (entry_app.py lines
327-329): every property present in the payload is overwritten; the
`소요시간` property keeps its old value when absent from the payload. -/
def applyReportProps (r : ReportRecord) (p : ReportProps) : ReportRecord :=
  { r with
      title := p.title
      studentId := p.studentId
      testName := p.testName
      score := p.score
      status := p.status
      examDate := p.examDate
      teacherId := p.teacherId
      timeTaken := match p.timeTaken with | some t => some t | none => r.timeTaken }

/-- The records of the Report database matching the query filter of
`create_report_entry` (entry_app.py lines 282-299). -/
def matchingReports (st : Store) (studentId testName : String) : List ReportRecord :=
  st.reports.filter (fun r => decide (r.studentId = studentId ∧ r.testName = testName))

/-- Result of `create_report_entry`: the store afterwards and how many
notifications (`send_notification` calls, entry_app.py lines 335, 350)
were issued. -/
structure ReportResult where
  store : Store
  notifications : Nat
deriving Repr

/-- `create_report_entry` (entry_app.py lines 279-354).  `queryOk`
models whether the existence query succeeded (on failure
`existing_page_id` stays `None`, lines 301-309); `wres` is the outcome
of the single create/update write.  On the update path the code never
checks the PATCH status (line 329), so a notification is sent whenever
the PATCH does not raise; on the create path a notification is sent
only on a 200 response (lines 346-350). -/
def createReportEntry (st : Store) (studentId studentName testName : String) (score : Nat)
    (teacherId : Option String) (examDateStr : String) (timeTaken : Nat)
    (queryOk : Bool) (wres : RWrite) : ReportResult :=
  let existingPageId : Option Nat :=
    if queryOk then (matchingReports st studentId testName).head?.map (fun r => r.id)
    else none
  let props := buildReportProps studentId studentName testName score teacherId examDateStr timeTaken
  match existingPageId with
  | some pid =>
      match wres with
      | .exn => { store := st, notifications := 0 }
      | .httpErr => { store := st, notifications := 1 }
      | .ok =>
          { store := { st with
              reports := st.reports.map (fun r =>
                if r.id = pid then applyReportProps r props else r) }
            notifications := 1 }
  | none =>
      match wres with
      | .ok =>
          { store := { st with
              reports := st.reports ++
                [{ id := st.nextId
                   title := props.title
                   studentId := props.studentId
                   testName := props.testName
                   score := props.score
                   status := props.status
                   examDate := props.examDate
                   teacherId := props.teacherId
                   timeTaken := props.timeTaken }]
              nextId := st.nextId + 1 }
            notifications := 1 }
      | _ => { store := st, notifications := 0 }

/-- Observable result of one `submit_results` call: the store
afterwards, the surfaced counts, the computed total score, whether
`create_report_entry` was invoked and with which score argument, the
number of notifications issued, and the log of result-record writes. -/
structure SubmitOutcome where
  store : Store
  successCount : Nat
  failCount : Nat
  totalScore : Nat
  reportInvoked : Bool
  reportScoreArg : Option Nat
  notifications : Nat
  log : List WriteAction
deriving Repr

/-- `submit_results` (entry_app.py lines 374-481): fetch the existing
map (possibly truncated by a transport error), run the per-question
loop, then call `create_report_entry` exactly when `success_count > 0`
(line 479), passing the `total_score` computed from all submitted
outcomes. -/
def submitResults (st : Store) (studentId studentName testName examDateStr : String)
    (questions : List Question) (finalOutcomes : List (String × Outcome))
    (teacherId : Option String) (timeTaken : Nat)
    (wfail : Nat → Bool) (loadTrunc : Option Nat) (rQueryOk : Bool) (rw : RWrite) :
    SubmitOutcome :=
  let emap := fetchExistingResultsFull st studentId testName loadTrunc
  let qm := buildQMetaMap questions
  let s := submitLoop emap qm studentId studentName testName examDateStr wfail 0
    { store := st, successCount := 0, failCount := 0, totalScore := 0, log := [] }
    finalOutcomes
  if s.successCount > 0 then
    let rr := createReportEntry s.store studentId studentName testName s.totalScore
      teacherId examDateStr timeTaken rQueryOk rw
    { store := rr.store
      successCount := s.successCount
      failCount := s.failCount
      totalScore := s.totalScore
      reportInvoked := true
      reportScoreArg := some s.totalScore
      notifications := rr.notifications
      log := s.log }
  else
    { store := s.store
      successCount := s.successCount
      failCount := s.failCount
      totalScore := s.totalScore
      reportInvoked := false
      reportScoreArg := none
      notifications := 0
      log := s.log }

/-- Python `p.startswith(q)` at the character level. -/
def pyStartswith (s p : String) : Bool :=
  p.toList.isPrefixOf s.toList

/-- The timed-test condition of `main` (entry_app.py lines 703, 784):
the test name begins with `"기초"` or with `"심화"`. -/
def isTimedTest (testName : String) : Bool :=
  pyStartswith testName "기초" || pyStartswith testName "심화"

/-- The save-button validation of `main` (entry_app.py lines 782-787):
the submission is rejected (error `"소요시간을 입력해주세요"`) exactly
when the test is timed and `time_taken <= 0`; `time_taken` is a
non-negative minute count, so `<= 0` is `= 0`. -/
def saveAccepted (testName : String) (timeTaken : Nat) : Bool :=
  !(isTimedTest testName && timeTaken == 0)

/-- Python `"".join`-free model of `val.lstrip("0")`: drop every leading
`'0'` character. -/
def lstripZeros (s : String) : String :=
  String.mk (s.toList.dropWhile (fun c => c = '0'))

/-- Label canonicalization shared by `fetch_questions` (entry_app.py
lines 198-200) and `parse_input_labels` (lines 545-547): strip leading
zeros when the string is longer than one character and starts with
`"0"`. -/
def canonLabel (s : String) : String :=
  if s.length > 1 && pyStartswith s "0" then lstripZeros s else s

/-- Python `str.split()` with no argument: split on whitespace runs,
discarding empty chunks.  `acc` holds the characters of the current
chunk in reverse. -/
def splitWsAux : List Char → List Char → List (List Char)
  | [], acc => if acc.isEmpty then [] else [acc.reverse]
  | c :: cs, acc =>
      if c.isWhitespace then
        if acc.isEmpty then splitWsAux cs [] else acc.reverse :: splitWsAux cs []
      else splitWsAux cs (c :: acc)

/-- Python `text.split()` on a whole string. -/
def pySplitWhitespace (s : String) : List String :=
  (splitWsAux s.toList []).map String.mk

/-- `parse_input_labels` (entry_app.py lines 535-549): map the
single-character separators `','`, `';'`, `'\n'` to spaces, split on
whitespace, and canonicalize each token by stripping leading zeros. -/
def parseInputLabels (text : String) : List String :=
  if text = "" then []
  else
    (pySplitWhitespace
      (String.mk (text.toList.map (fun c =>
        if c = ',' || c = ';' || c = '\n' then ' ' else c)))).map canonLabel

/-- The two batch input modes of `main` (entry_app.py lines 763-773). -/
inductive BatchMode
  | correctNumbers
  | incorrectNumbers
deriving DecidableEq, Repr

/-- Outcome assigned to a question label by the batch branch of `main`
(entry_app.py lines 763-773): in `"Input Correct Numbers"` mode a label
appearing among the parsed input labels is `"정답"` and every other
label `"오답"`; in `"Input Incorrect Numbers"` mode the opposite. -/
def batchOutcomeFor (mode : BatchMode) (inputLabels : List String) (label : String) : Outcome :=
  match mode with
  | .correctNumbers =>
      if label ∈ inputLabels then Outcome.correct else Outcome.incorrect
  | .incorrectNumbers =>
      if label ∈ inputLabels then Outcome.incorrect else Outcome.correct

/-- The dict `final_outcomes_to_save` built by the batch branch of
`main` (entry_app.py lines 760-775): one insertion per question of the
loaded test, in display order. -/
def batchOutcomes (mode : BatchMode) (inputLabels : List String)
    (questions : List Question) : List (String × Outcome) :=
  questions.foldl (fun m q => dictInsert m q.id (batchOutcomeFor mode inputLabels q.label)) []

/-- Store well-formedness: page ids are pairwise distinct and below the
fresh-id counter.  Every store reachable from an empty store by the
operations of this file satisfies it. -/
def StoreWF (st : Store) : Prop :=
  (st.results.map (fun r => r.id)).Nodup ∧
  (st.reports.map (fun r => r.id)).Nodup ∧
  (∀ r ∈ st.results, r.id < st.nextId) ∧
  (∀ r ∈ st.reports, r.id < st.nextId)

instance : DecidablePred StoreWF := fun st => by
  unfold StoreWF; infer_instance

/-- The write rule of the reconciliation engine as the spec states it
(spec.md §4.2): for the `i`-th submitted pair, an update to the record
id found in the existing map when present, otherwise a create; the
`ok` bit records whether the `i`-th remote write succeeded. -/
def planRule (emap : List (String × Nat)) (wfail : Nat → Bool) :
    Nat → List (String × Outcome) → List WriteAction
  | _, [] => []
  | i, (q, o) :: rest =>
      (match dictGet emap q with
       | some pid => WriteAction.updateW q pid o (!wfail i)
       | none => WriteAction.createW q o (!wfail i)) :: planRule emap wfail (i + 1) rest

/-! ### Association-list (Python dict) lemmas -/

theorem dictGet_insert_self {β : Type} (m : List (String × β)) (k : String) (v : β) :
    dictGet (dictInsert m k v) k = some v := by
  induction m with
  | nil => simp [dictInsert, dictGet]
  | cons p m ih =>
      by_cases h : p.1 = k
      · simp [dictInsert, dictGet, h]
      · simp [dictInsert, dictGet, h, ih]

theorem dictGet_insert_ne {β : Type} (m : List (String × β)) (k k' : String) (v : β)
    (h : k' ≠ k) : dictGet (dictInsert m k v) k' = dictGet m k' := by
  induction m with
  | nil => simp [dictInsert, dictGet, Ne.symm h]
  | cons p m ih =>
      by_cases hp : p.1 = k
      · simp [dictInsert, dictGet, hp, Ne.symm h]
      · by_cases hp' : p.1 = k'
        · simp [dictInsert, dictGet, hp, hp', h]
        · simp [dictInsert, dictGet, hp, hp', ih]

theorem dictGet_insert_isSome {β : Type} (m : List (String × β)) (k k' : String) (v : β)
    (h : (dictGet m k').isSome = true) :
    (dictGet (dictInsert m k v) k').isSome = true := by
  by_cases hk : k' = k
  · subst hk; simp [dictGet_insert_self]
  · rw [dictGet_insert_ne m k k' v hk]; exact h

theorem dictInsert_of_get_none {β : Type} (m : List (String × β)) (k : String) (v : β)
    (h : dictGet m k = none) : dictInsert m k v = m ++ [(k, v)] := by
  induction m with
  | nil => rfl
  | cons p m ih =>
      by_cases hp : p.1 = k
      · simp [dictGet, hp] at h
      · simp only [dictGet, if_neg hp] at h
        simp [dictInsert, hp, ih h]

theorem dictGet_append_of_none {β : Type} (m₁ m₂ : List (String × β)) (k : String)
    (h : dictGet m₁ k = none) : dictGet (m₁ ++ m₂) k = dictGet m₂ k := by
  induction m₁ with
  | nil => simp
  | cons p m ih =>
      by_cases hp : p.1 = k
      · simp [dictGet, hp] at h
      · simp only [dictGet, if_neg hp] at h
        simp [dictGet, hp, ih h]

theorem dictGet_of_mem_nodup {β : Type} :
    ∀ (m : List (String × β)) (k : String) (v : β),
      (m.map Prod.fst).Nodup → (k, v) ∈ m → dictGet m k = some v := by
  intro m
  induction m with
  | nil => intro k v _ h; cases h
  | cons p m ih =>
      intro k v hnd hm
      rcases List.mem_cons.mp hm with h | h
      · subst h; simp [dictGet]
      · have hp : p.1 ≠ k := by
          intro he
          have hk : k ∈ m.map Prod.fst := List.mem_map_of_mem Prod.fst h
          rw [← he] at hk
          exact (List.nodup_cons.mp (by simpa using hnd)).1 hk
        simp [dictGet, hp, ih k v (List.nodup_cons.mp (by simpa using hnd)).2 h]

/-! ### Lemmas about the existing-results map -/

theorem foldl_existing_some_mono (rs : List ResultRecord) (m : List (String × Nat)) (q : String)
    (h : (dictGet m q).isSome = true) :
    (dictGet (rs.foldl (fun m r => dictInsert m r.questionId r.id) m) q).isSome = true := by
  induction rs generalizing m with
  | nil => exact h
  | cons r rs ih => exact ih _ (dictGet_insert_isSome _ _ _ _ h)

theorem foldl_existing_isSome_of_mem {rs : List ResultRecord} {r : ResultRecord} (hr : r ∈ rs) :
    ∀ m, (dictGet (rs.foldl (fun m r => dictInsert m r.questionId r.id) m) r.questionId).isSome
      = true := by
  induction hr with
  | head rs =>
      intro m
      have h : (dictGet (dictInsert m r.questionId r.id) r.questionId).isSome = true := by
        rw [dictGet_insert_self]; rfl
      exact foldl_existing_some_mono rs (dictInsert m r.questionId r.id) r.questionId h
  | tail r' hmem ih => intro m; exact ih _

theorem foldl_existing_get_some (rs : List ResultRecord) (q : String) (pid : Nat) :
    ∀ m, dictGet (rs.foldl (fun m r => dictInsert m r.questionId r.id) m) q = some pid →
      (∃ r ∈ rs, r.questionId = q ∧ r.id = pid) ∨ dictGet m q = some pid := by
  induction rs with
  | nil => intro m h; exact Or.inr h
  | cons r rs ih =>
      intro m h
      rcases ih _ h with h' | h'
      · obtain ⟨r', hr', hq, hid⟩ := h'
        exact Or.inl ⟨r', List.mem_cons_of_mem _ hr', hq, hid⟩
      · by_cases hq : q = r.questionId
        · subst hq
          rw [dictGet_insert_self] at h'
          exact Or.inl ⟨r, List.mem_cons_self _ _, rfl, Option.some.inj h'⟩
        · rw [dictGet_insert_ne _ _ _ _ hq] at h'
          exact Or.inr h'

theorem buildExistingMap_get_some {rs : List ResultRecord} {q : String} {pid : Nat}
    (h : dictGet (buildExistingMap rs) q = some pid) :
    ∃ r ∈ rs, r.questionId = q ∧ r.id = pid := by
  rcases foldl_existing_get_some rs q pid [] h with h' | h'
  · exact h'
  · simp [dictGet] at h'

theorem buildExistingMap_isSome {rs : List ResultRecord} {r : ResultRecord} (hr : r ∈ rs) :
    (dictGet (buildExistingMap rs) r.questionId).isSome = true :=
  foldl_existing_isSome_of_mem hr []

/-! ### The batch dict over pairwise-distinct question ids -/

theorem foldl_dictInsert_fresh {β : Type} (f : Question → β) :
    ∀ (l : List Question) (acc : List (String × β)),
      (∀ q ∈ l, dictGet acc q.id = none) → (l.map (fun q => q.id)).Nodup →
      l.foldl (fun m q => dictInsert m q.id (f q)) acc =
        acc ++ l.map (fun q => (q.id, f q)) := by
  intro l
  induction l with
  | nil => intro acc _ _; simp
  | cons q l ih =>
      intro acc hfresh hnd
      have hq : dictGet acc q.id = none := hfresh q (List.mem_cons_self _ _)
      have hstep : dictInsert acc q.id (f q) = acc ++ [(q.id, f q)] :=
        dictInsert_of_get_none _ _ _ hq
      have hnd0 : q.id ∉ l.map (fun q => q.id) ∧ (l.map (fun q => q.id)).Nodup :=
        List.nodup_cons.mp (by simpa using hnd)
      have hne : ∀ q' ∈ l, q.id ≠ q'.id := by
        intro q' hq' heq
        exact hnd0.1 (heq ▸ List.mem_map_of_mem (fun q => q.id) hq')
      have hfresh' : ∀ q' ∈ l, dictGet (acc ++ [(q.id, f q)]) q'.id = none := by
        intro q' hq'
        rw [dictGet_append_of_none _ _ _ (hfresh q' (List.mem_cons_of_mem _ hq'))]
        simp [dictGet, hne q' hq']
      calc (q :: l).foldl (fun m q => dictInsert m q.id (f q)) acc
      _ = l.foldl (fun m q => dictInsert m q.id (f q)) (acc ++ [(q.id, f q)]) := by
            simp [List.foldl_cons, hstep]
      _ = (acc ++ [(q.id, f q)]) ++ l.map (fun q => (q.id, f q)) := ih _ hfresh' hnd0.2
      _ = acc ++ (q :: l).map (fun q => (q.id, f q)) := by simp

/-! ### Per-step lemmas about the write loop of `submit_results` -/

theorem processOne_log (emap : List (String × Nat)) (qm : List (String × Question))
    (sid sname tname date : String) (fail : Bool) (s : LoopState)
    (qid : String) (o : Outcome) :
    (processOne emap qm sid sname tname date fail s qid o).log =
      s.log ++ [match dictGet emap qid with
                | some pid => WriteAction.updateW qid pid o (!fail)
                | none => WriteAction.createW qid o (!fail)] := by
  unfold processOne
  cases hq : dictGet emap qid <;> cases fail <;> simp [hq]

theorem processOne_success (emap : List (String × Nat)) (qm : List (String × Question))
    (sid sname tname date : String) (fail : Bool) (s : LoopState)
    (qid : String) (o : Outcome) :
    (processOne emap qm sid sname tname date fail s qid o).successCount =
      s.successCount + (if fail then 0 else 1) := by
  unfold processOne
  cases hq : dictGet emap qid <;> cases fail <;> simp [hq]

theorem processOne_failCnt (emap : List (String × Nat)) (qm : List (String × Question))
    (sid sname tname date : String) (fail : Bool) (s : LoopState)
    (qid : String) (o : Outcome) :
    (processOne emap qm sid sname tname date fail s qid o).failCount =
      s.failCount + (if fail then 1 else 0) := by
  unfold processOne
  cases hq : dictGet emap qid <;> cases fail <;> simp [hq]

theorem processOne_score (emap : List (String × Nat)) (qm : List (String × Question))
    (sid sname tname date : String) (fail : Bool) (s : LoopState)
    (qid : String) (o : Outcome) :
    (processOne emap qm sid sname tname date fail s qid o).totalScore =
      s.totalScore + outcomeScore qm qid o := by
  unfold processOne
  cases hq : dictGet emap qid <;> cases fail <;> simp [hq]

theorem processOne_reports (emap : List (String × Nat)) (qm : List (String × Question))
    (sid sname tname date : String) (fail : Bool) (s : LoopState)
    (qid : String) (o : Outcome) :
    (processOne emap qm sid sname tname date fail s qid o).store.reports =
      s.store.reports := by
  unfold processOne
  cases hq : dictGet emap qid <;> cases fail <;> simp [hq]

theorem processOne_len_isSome (emap : List (String × Nat)) (qm : List (String × Question))
    (sid sname tname date : String) (fail : Bool) (s : LoopState)
    (qid : String) (o : Outcome) (hq : (dictGet emap qid).isSome = true) :
    (processOne emap qm sid sname tname date fail s qid o).store.results.length =
      s.store.results.length := by
  unfold processOne
  obtain ⟨pid, hpid⟩ := Option.isSome_iff_exists.mp hq
  rw [hpid]
  cases fail <;> simp

theorem processOne_mono (emap : List (String × Nat)) (qm : List (String × Question))
    (sid sname tname date : String) (fail : Bool) (s : LoopState)
    (qid : String) (o : Outcome) (r : ResultRecord) (hr : r ∈ s.store.results) :
    ∃ r' ∈ (processOne emap qm sid sname tname date fail s qid o).store.results,
      r'.studentId = r.studentId ∧ r'.questionId = r.questionId ∧ r'.testName = r.testName := by
  unfold processOne
  cases hq : dictGet emap qid with
  | none =>
      cases fail with
      | true => exact ⟨r, by simpa using hr, rfl, rfl, rfl⟩
      | false => exact ⟨r, by simp [List.mem_append]; exact Or.inl hr, rfl, rfl, rfl⟩
  | some pid =>
      cases fail with
      | true => exact ⟨r, by simpa using hr, rfl, rfl, rfl⟩
      | false =>
          refine ⟨if r.id = pid then { r with outcome := o, examDate := date } else r, ?_, ?_⟩
          · simpa using List.mem_map_of_mem
              (fun r => if r.id = pid then { r with outcome := o, examDate := date } else r) hr
          · by_cases h : r.id = pid <;> simp [h]

/-! ### Loop-level lemmas -/

theorem planRule_length (emap : List (String × Nat)) (wfail : Nat → Bool) :
    ∀ (i : Nat) (l : List (String × Outcome)), (planRule emap wfail i l).length = l.length := by
  intro i l
  induction l generalizing i with
  | nil => rfl
  | cons p l ih => cases p with | mk q o => simp [planRule, ih]

theorem submitLoop_log (emap : List (String × Nat)) (qm : List (String × Question))
    (sid sname tname date : String) (wfail : Nat → Bool) :
    ∀ (l : List (String × Outcome)) (i : Nat) (s : LoopState),
      (submitLoop emap qm sid sname tname date wfail i s l).log =
        s.log ++ planRule emap wfail i l := by
  intro l
  induction l with
  | nil => intro i s; simp [submitLoop, planRule]
  | cons p l ih =>
      intro i s
      cases p with
      | mk q o =>
          rw [submitLoop, ih, processOne_log, planRule]
          cases hq : dictGet emap q <;> simp [hq]

theorem submitLoop_success (emap : List (String × Nat)) (qm : List (String × Question))
    (sid sname tname date : String) (wfail : Nat → Bool) :
    ∀ (l : List (String × Outcome)) (i : Nat) (s : LoopState),
      (submitLoop emap qm sid sname tname date wfail i s l).successCount =
        s.successCount + (planRule emap wfail i l).countP (fun a => a.ok) := by
  intro l
  induction l with
  | nil => intro i s; simp [submitLoop, planRule]
  | cons p l ih =>
      intro i s
      cases p with
      | mk q o =>
          rw [submitLoop, ih, processOne_success, planRule]
          cases hq : dictGet emap q <;> cases hf : wfail i <;>
            simp [hq, hf, WriteAction.ok, List.countP_cons, Nat.add_assoc, Nat.add_comm]

theorem submitLoop_failCnt (emap : List (String × Nat)) (qm : List (String × Question))
    (sid sname tname date : String) (wfail : Nat → Bool) :
    ∀ (l : List (String × Outcome)) (i : Nat) (s : LoopState),
      (submitLoop emap qm sid sname tname date wfail i s l).failCount =
        s.failCount + (planRule emap wfail i l).countP (fun a => !a.ok) := by
  intro l
  induction l with
  | nil => intro i s; simp [submitLoop, planRule]
  | cons p l ih =>
      intro i s
      cases p with
      | mk q o =>
          rw [submitLoop, ih, processOne_failCnt, planRule]
          cases hq : dictGet emap q <;> cases hf : wfail i <;>
            simp [hq, hf, WriteAction.ok, List.countP_cons, Nat.add_assoc, Nat.add_comm]

theorem submitLoop_score (emap : List (String × Nat)) (qm : List (String × Question))
    (sid sname tname date : String) (wfail : Nat → Bool) :
    ∀ (l : List (String × Outcome)) (i : Nat) (s : LoopState),
      (submitLoop emap qm sid sname tname date wfail i s l).totalScore =
        s.totalScore + (l.map (scoreOfEntry qm)).sum := by
  intro l
  induction l with
  | nil => intro i s; simp [submitLoop]
  | cons p l ih =>
      intro i s
      cases p with
      | mk q o =>
          rw [submitLoop, ih, processOne_score]
          simp [scoreOfEntry, Nat.add_assoc]

theorem submitLoop_reports (emap : List (String × Nat)) (qm : List (String × Question))
    (sid sname tname date : String) (wfail : Nat → Bool) :
    ∀ (l : List (String × Outcome)) (i : Nat) (s : LoopState),
      (submitLoop emap qm sid sname tname date wfail i s l).store.reports =
        s.store.reports := by
  intro l
  induction l with
  | nil => intro i s; rfl
  | cons p l ih =>
      intro i s
      cases p with
      | mk q o => rw [submitLoop, ih, processOne_reports]

theorem submitLoop_len_isSome (emap : List (String × Nat)) (qm : List (String × Question))
    (sid sname tname date : String) (wfail : Nat → Bool) :
    ∀ (l : List (String × Outcome)) (i : Nat) (s : LoopState),
      (∀ p ∈ l, (dictGet emap p.1).isSome = true) →
      (submitLoop emap qm sid sname tname date wfail i s l).store.results.length =
        s.store.results.length := by
  intro l
  induction l with
  | nil => intro i s _; rfl
  | cons p l ih =>
      intro i s hall
      cases p with
      | mk q o =>
          rw [submitLoop, ih _ _ (fun p hp => hall p (List.mem_cons_of_mem _ hp)),
            processOne_len_isSome]
          exact hall (q, o) (List.mem_cons_self _ _)

theorem submitLoop_mono (emap : List (String × Nat)) (qm : List (String × Question))
    (sid sname tname date : String) (wfail : Nat → Bool) :
    ∀ (l : List (String × Outcome)) (i : Nat) (s : LoopState) (r : ResultRecord),
      r ∈ s.store.results →
      ∃ r' ∈ (submitLoop emap qm sid sname tname date wfail i s l).store.results,
        r'.studentId = r.studentId ∧ r'.questionId = r.questionId ∧ r'.testName = r.testName := by
  intro l
  induction l with
  | nil => intro i s r hr; exact ⟨r, hr, rfl, rfl, rfl⟩
  | cons p l ih =>
      intro i s r hr
      cases p with
      | mk q o =>
          obtain ⟨r₁, hr₁, h₁, h₂, h₃⟩ :=
            processOne_mono emap qm sid sname tname date (wfail i) s q o r hr
          obtain ⟨r₂, hr₂, g₁, g₂, g₃⟩ := ih (i + 1) _ r₁ hr₁
          exact ⟨r₂, by rw [submitLoop]; exact hr₂, by rw [g₁, h₁], by rw [g₂, h₂],
            by rw [g₃, h₃]⟩

theorem processOne_creates (emap : List (String × Nat)) (qm : List (String × Question))
    (sid sname tname date : String) (s : LoopState) (q : String) (o : Outcome)
    (hq : dictGet emap q = none) :
    ∃ r ∈ (processOne emap qm sid sname tname date false s q o).store.results,
      r.studentId = sid ∧ r.questionId = q ∧ r.testName = tname := by
  unfold processOne
  rw [hq]
  exact ⟨{ id := s.store.nextId
           title := sname ++ "-" ++ tname ++ "-" ++
             lastUnderscorePart (((dictGet qm q).map Question.title).getD "")
           studentId := sid, questionId := q, testName := tname, outcome := o,
           examDate := date },
         by simp, rfl, rfl, rfl⟩

theorem submitLoop_covers (emap : List (String × Nat)) (qm : List (String × Question))
    (sid sname tname date : String) (wfail : Nat → Bool) (hwf : ∀ j, wfail j = false) :
    ∀ (l : List (String × Outcome)) (i : Nat) (s : LoopState),
      (∀ q pid, dictGet emap q = some pid →
        ∃ r ∈ s.store.results, r.studentId = sid ∧ r.questionId = q ∧ r.testName = tname) →
      ∀ p ∈ l,
        ∃ r ∈ (submitLoop emap qm sid sname tname date wfail i s l).store.results,
          r.studentId = sid ∧ r.questionId = p.1 ∧ r.testName = tname := by
  intro l
  induction l with
  | nil => intro i s _ p hp; cases hp
  | cons hd l ih =>
      intro i s hemap p hp
      cases hd with
      | mk q o =>
          have hemap' : ∀ q' pid, dictGet emap q' = some pid →
              ∃ r ∈ (processOne emap qm sid sname tname date (wfail i) s q o).store.results,
                r.studentId = sid ∧ r.questionId = q' ∧ r.testName = tname := by
            intro q' pid h
            obtain ⟨r, hr, h₁, h₂, h₃⟩ := hemap q' pid h
            obtain ⟨r', hr', g₁, g₂, g₃⟩ :=
              processOne_mono emap qm sid sname tname date (wfail i) s q o r hr
            exact ⟨r', hr', by rw [g₁, h₁], by rw [g₂, h₂], by rw [g₃, h₃]⟩
          rcases List.mem_cons.mp hp with h | h
          · subst h
            rw [submitLoop]
            cases hq : dictGet emap q with
            | some pid =>
                obtain ⟨r', hr', g₁, g₂, g₃⟩ := hemap' q pid hq
                obtain ⟨r₂, hr₂, k₁, k₂, k₃⟩ :=
                  submitLoop_mono emap qm sid sname tname date wfail l (i + 1) _ r' hr'
                exact ⟨r₂, hr₂, by rw [k₁, g₁], by rw [k₂, g₂], by rw [k₃, g₃]⟩
            | none =>
                obtain ⟨r', hr', g₁, g₂, g₃⟩ := by
                  have := processOne_creates emap qm sid sname tname date s q o hq
                  rw [← hwf i] at this
                  exact this
                obtain ⟨r₂, hr₂, k₁, k₂, k₃⟩ :=
                  submitLoop_mono emap qm sid sname tname date wfail l (i + 1) _ r' hr'
                exact ⟨r₂, hr₂, by rw [k₁, g₁], by rw [k₂, g₂], by rw [k₃, g₃]⟩
          · rw [submitLoop]
            exact ih (i + 1) _ hemap' p h

theorem processOne_untouched (emap : List (String × Nat)) (qm : List (String × Question))
    (sid sname tname date : String) (fail : Bool) (s : LoopState) (q : String) (o : Outcome)
    (r : ResultRecord) (hr : r ∈ s.store.results)
    (hpid : ∀ pid, dictGet emap q = some pid → pid ≠ r.id) :
    r ∈ (processOne emap qm sid sname tname date fail s q o).store.results := by
  unfold processOne
  cases hq : dictGet emap q with
  | none =>
      cases fail with
      | true => simpa using hr
      | false => exact List.mem_append_left _ hr
  | some pid =>
      cases fail with
      | true => simpa using hr
      | false =>
          have hfr := List.mem_map_of_mem
            (fun rec => if rec.id = pid then { rec with outcome := o, examDate := date }
              else rec) hr
          have heq : (fun rec => if rec.id = pid then { rec with outcome := o, examDate := date }
              else rec) r = r := by
            simp [if_neg (Ne.symm (hpid pid hq))]
          exact heq ▸ hfr

theorem submitLoop_untouched (emap : List (String × Nat)) (qm : List (String × Question))
    (sid sname tname date : String) (wfail : Nat → Bool) (r : ResultRecord) :
    ∀ (l : List (String × Outcome)) (i : Nat) (s : LoopState),
      (∀ p ∈ l, ∀ pid, dictGet emap p.1 = some pid → pid ≠ r.id) →
      r ∈ s.store.results →
      r ∈ (submitLoop emap qm sid sname tname date wfail i s l).store.results := by
  intro l
  induction l with
  | nil => intro i s _ hr; exact hr
  | cons hd l ih =>
      intro i s hpid hr
      cases hd with
      | mk q o =>
          rw [submitLoop]
          exact ih (i + 1) _ (fun p hp => hpid p (List.mem_cons_of_mem _ hp))
            (processOne_untouched emap qm sid sname tname date (wfail i) s q o r hr
              (hpid (q, o) (List.mem_cons_self _ _)))

/-! ### Frame lemmas for `create_report_entry` -/

theorem createReportEntry_results (st : Store) (sid sname tname : String) (score : Nat)
    (teacherId : Option String) (date : String) (t : Nat) (queryOk : Bool) (wres : RWrite) :
    (createReportEntry st sid sname tname score teacherId date t queryOk wres).store.results =
      st.results := by
  simp only [createReportEntry]
  split
  · split <;> rfl
  · split <;> rfl

/-! ### Characterization of the observable fields of `submit_results` -/

theorem submitResults_log (st : Store) (sid sname tname date : String)
    (questions : List Question) (finalOutcomes : List (String × Outcome))
    (teacher : Option String) (t : Nat) (wfail : Nat → Bool) (lt : Option Nat)
    (rq : Bool) (rwres : RWrite) :
    (submitResults st sid sname tname date questions finalOutcomes teacher t wfail lt rq
      rwres).log = planRule (fetchExistingResultsFull st sid tname lt) wfail 0 finalOutcomes := by
  simp only [submitResults]
  split <;> simp [submitLoop_log]

theorem submitResults_success (st : Store) (sid sname tname date : String)
    (questions : List Question) (finalOutcomes : List (String × Outcome))
    (teacher : Option String) (t : Nat) (wfail : Nat → Bool) (lt : Option Nat)
    (rq : Bool) (rwres : RWrite) :
    (submitResults st sid sname tname date questions finalOutcomes teacher t wfail lt rq
      rwres).successCount =
      (planRule (fetchExistingResultsFull st sid tname lt) wfail 0 finalOutcomes).countP
        (fun a => a.ok) := by
  simp only [submitResults]
  split <;> simp [submitLoop_success]

theorem submitResults_failCnt (st : Store) (sid sname tname date : String)
    (questions : List Question) (finalOutcomes : List (String × Outcome))
    (teacher : Option String) (t : Nat) (wfail : Nat → Bool) (lt : Option Nat)
    (rq : Bool) (rwres : RWrite) :
    (submitResults st sid sname tname date questions finalOutcomes teacher t wfail lt rq
      rwres).failCount =
      (planRule (fetchExistingResultsFull st sid tname lt) wfail 0 finalOutcomes).countP
        (fun a => !a.ok) := by
  simp only [submitResults]
  split <;> simp [submitLoop_failCnt]

theorem submitResults_score (st : Store) (sid sname tname date : String)
    (questions : List Question) (finalOutcomes : List (String × Outcome))
    (teacher : Option String) (t : Nat) (wfail : Nat → Bool) (lt : Option Nat)
    (rq : Bool) (rwres : RWrite) :
    (submitResults st sid sname tname date questions finalOutcomes teacher t wfail lt rq
      rwres).totalScore = (finalOutcomes.map (scoreOfEntry (buildQMetaMap questions))).sum := by
  simp only [submitResults]
  split <;> simp [submitLoop_score]

theorem submitResults_results (st : Store) (sid sname tname date : String)
    (questions : List Question) (finalOutcomes : List (String × Outcome))
    (teacher : Option String) (t : Nat) (wfail : Nat → Bool) (lt : Option Nat)
    (rq : Bool) (rwres : RWrite) :
    (submitResults st sid sname tname date questions finalOutcomes teacher t wfail lt rq
      rwres).store.results =
      (submitLoop (fetchExistingResultsFull st sid tname lt) (buildQMetaMap questions)
        sid sname tname date wfail 0
        { store := st, successCount := 0, failCount := 0, totalScore := 0, log := [] }
        finalOutcomes).store.results := by
  simp only [submitResults]
  split
  · rw [createReportEntry_results]
  · rfl

theorem submitResults_reportScore (st : Store) (sid sname tname date : String)
    (questions : List Question) (finalOutcomes : List (String × Outcome))
    (teacher : Option String) (t : Nat) (wfail : Nat → Bool) (lt : Option Nat)
    (rq : Bool) (rwres : RWrite)
    (h : 0 < (submitResults st sid sname tname date questions finalOutcomes teacher t wfail
      lt rq rwres).successCount) :
    (submitResults st sid sname tname date questions finalOutcomes teacher t wfail lt rq
      rwres).reportScoreArg =
      some ((finalOutcomes.map (scoreOfEntry (buildQMetaMap questions))).sum) := by
  revert h
  simp only [submitResults]
  split
  · intro _; simp [submitLoop_score]
  next hneg => intro h; simp at h; omega

/-! ### Sample fixtures used by the concrete witnesses -/

/-- An empty remote store. -/
def emptyStore : Store := { results := [], reports := [], nextId := 0 }

/-- Three sample questions with scores 3, 5, 2 (the example of spec.md §8). -/
def sampleQs : List Question :=
  [{ id := "q1", title := "T_1", label := "1", score := 3 },
   { id := "q2", title := "T_2", label := "2", score := 5 },
   { id := "q3", title := "T_3", label := "3", score := 2 }]

/-- The sample submission of spec.md §8: q1 correct, q2 incorrect, q3 correct. -/
def sampleOutcomes : List (String × Outcome) :=
  [("q1", Outcome.correct), ("q2", Outcome.incorrect), ("q3", Outcome.correct)]

/-! ### Claim C6 -/

theorem submitResults_invoked_iff (st : Store) (sid sname tname date : String)
    (questions : List Question) (finalOutcomes : List (String × Outcome))
    (teacher : Option String) (t : Nat) (wfail : Nat → Bool) (lt : Option Nat)
    (rq : Bool) (rwres : RWrite) :
    ((submitResults st sid sname tname date questions finalOutcomes teacher t wfail lt rq
        rwres).reportInvoked = true ↔
      0 < (submitResults st sid sname tname date questions finalOutcomes teacher t wfail lt rq
        rwres).successCount) := by
  simp only [submitResults]
  split
  next h => simpa using h
  next h => simpa using h

theorem submitResults_zero_frame (st : Store) (sid sname tname date : String)
    (questions : List Question) (finalOutcomes : List (String × Outcome))
    (teacher : Option String) (t : Nat) (wfail : Nat → Bool) (lt : Option Nat)
    (rq : Bool) (rwres : RWrite)
    (h : (submitResults st sid sname tname date questions finalOutcomes teacher t wfail lt rq
      rwres).successCount = 0) :
    (submitResults st sid sname tname date questions finalOutcomes teacher t wfail lt rq
      rwres).store.reports = st.reports ∧
    (submitResults st sid sname tname date questions finalOutcomes teacher t wfail lt rq
      rwres).notifications = 0 := by
  revert h
  simp only [submitResults]
  split
  next hp => intro h; simp only at h; omega
  next hp =>
      intro _
      refine ⟨?_, rfl⟩
      rw [submitLoop_reports]

/-- Claim C6: `create_report_entry` is invoked by the submission flow
iff the write phase reported `success_count > 0`; on a submission where
every individual result write failed the Report database is untouched
and no notification is sent (entry_app.py lines 479-481). -/
theorem claim_C6 (st : Store) (sid sname tname date : String)
    (questions : List Question) (finalOutcomes : List (String × Outcome))
    (teacher : Option String) (t : Nat) (wfail : Nat → Bool) (lt : Option Nat)
    (rq : Bool) (rwres : RWrite) :
    ((submitResults st sid sname tname date questions finalOutcomes teacher t wfail lt rq
        rwres).reportInvoked = true ↔
      0 < (submitResults st sid sname tname date questions finalOutcomes teacher t wfail lt rq
        rwres).successCount) ∧
    ((submitResults st sid sname tname date questions finalOutcomes teacher t wfail lt rq
        rwres).successCount = 0 →
      (submitResults st sid sname tname date questions finalOutcomes teacher t wfail lt rq
        rwres).store.reports = st.reports ∧
      (submitResults st sid sname tname date questions finalOutcomes teacher t wfail lt rq
        rwres).notifications = 0) :=
  ⟨submitResults_invoked_iff st sid sname tname date questions finalOutcomes teacher t wfail
      lt rq rwres,
   fun h => submitResults_zero_frame st sid sname tname date questions finalOutcomes teacher t
      wfail lt rq rwres h⟩

/-- Witness for C6: a concrete submission in which every write fails
leaves the Report database untouched, sends no notification, and does
not invoke the report upsert. -/
theorem claim_C6_witness :
    (submitResults emptyStore "s1" "Stu" "T" "d" sampleQs sampleOutcomes none 0
      (fun _ => true) none true RWrite.ok).successCount = 0 ∧
    (submitResults emptyStore "s1" "Stu" "T" "d" sampleQs sampleOutcomes none 0
      (fun _ => true) none true RWrite.ok).store.reports = emptyStore.reports ∧
    (submitResults emptyStore "s1" "Stu" "T" "d" sampleQs sampleOutcomes none 0
      (fun _ => true) none true RWrite.ok).notifications = 0 ∧
    (submitResults emptyStore "s1" "Stu" "T" "d" sampleQs sampleOutcomes none 0
      (fun _ => true) none true RWrite.ok).reportInvoked = false := by
  have h := claim_C6 emptyStore "s1" "Stu" "T" "d" sampleQs sampleOutcomes none 0
    (fun _ => true) none true RWrite.ok
  exact ⟨by decide, (h.2 (by decide)).1, (h.2 (by decide)).2, by decide⟩

/-! ### Claim C3 -/

/-- Claim C3: the computed `total_score` is the sum, over submitted
entries whose outcome is Correct, of the question's score, with 0 used
when the question metadata is missing (`outcomeScore` uses the
defensive `.get("score", 0)` default, never an error); the sum is
independent of the iteration order of the submitted entries — any
permutation of the submitted pairs (even with different store, date,
failure pattern and report-write outcome) yields the same totalScore. -/
theorem claim_C3 (st st' : Store) (sid sname tname date sid' sname' tname' date' : String)
    (questions : List Question) (finalOutcomes finalOutcomes' : List (String × Outcome))
    (teacher teacher' : Option String) (t t' : Nat) (wfail wfail' : Nat → Bool)
    (lt lt' : Option Nat) (rq rq' : Bool) (rwres rwres' : RWrite)
    (hperm : finalOutcomes.Perm finalOutcomes') :
    (submitResults st sid sname tname date questions finalOutcomes teacher t wfail lt rq
        rwres).totalScore =
      (finalOutcomes.map (scoreOfEntry (buildQMetaMap questions))).sum ∧
    (submitResults st' sid' sname' tname' date' questions finalOutcomes' teacher' t' wfail'
        lt' rq' rwres').totalScore =
      (submitResults st sid sname tname date questions finalOutcomes teacher t wfail lt rq
        rwres).totalScore := by
  refine ⟨submitResults_score st sid sname tname date questions finalOutcomes teacher t wfail
    lt rq rwres, ?_⟩
  rw [submitResults_score, submitResults_score,
    (hperm.map (scoreOfEntry (buildQMetaMap questions))).sum_eq]

/-- Witness for C3: with submitted outcomes q1 Correct (score 3),
q2 Incorrect (score 5), q3 Correct (score 2), the total score is 5,
also after reversing the iteration order. -/
theorem claim_C3_witness :
    sampleOutcomes.Perm sampleOutcomes.reverse ∧
    ((submitResults emptyStore "s1" "Stu" "T" "d" sampleQs sampleOutcomes none 0
        (fun _ => false) none true RWrite.ok).totalScore =
      (sampleOutcomes.map (scoreOfEntry (buildQMetaMap sampleQs))).sum ∧
     (submitResults emptyStore "s2" "Stu2" "T" "d2" sampleQs sampleOutcomes.reverse none 0
        (fun _ => true) none false RWrite.exn).totalScore =
      (submitResults emptyStore "s1" "Stu" "T" "d" sampleQs sampleOutcomes none 0
        (fun _ => false) none true RWrite.ok).totalScore) ∧
    (submitResults emptyStore "s1" "Stu" "T" "d" sampleQs sampleOutcomes none 0
      (fun _ => false) none true RWrite.ok).totalScore = 5 :=
  ⟨by decide,
   claim_C3 emptyStore emptyStore "s1" "Stu" "T" "d" "s2" "Stu2" "T" "d2" sampleQs
     sampleOutcomes sampleOutcomes.reverse none none 0 0 (fun _ => false) (fun _ => true)
     none none true false RWrite.ok RWrite.exn (by decide),
   by decide⟩

/-! ### Claim C7 -/

theorem countP_ok_add_countP_not_ok (l : List WriteAction) :
    l.countP (fun a => a.ok) + l.countP (fun a => !a.ok) = l.length := by
  induction l with
  | nil => rfl
  | cons a l ih => cases h : a.ok <;> simp [List.countP_cons, h] <;> omega

/-- Claim C7: every planned record is attempted exactly once regardless
of other records' failures (the write log follows the plan rule and has
one entry per submitted pair, in order), `success_count` and
`fail_count` are the numbers of succeeded and failed writes with
`success_count + fail_count = N`, and when the report upsert runs its
score argument is the total computed from all N submitted outcomes. -/
theorem claim_C7 (st : Store) (sid sname tname date : String) (questions : List Question)
    (finalOutcomes : List (String × Outcome)) (teacher : Option String) (t : Nat)
    (wfail : Nat → Bool) (lt : Option Nat) (rq : Bool) (rwres : RWrite) :
    (submitResults st sid sname tname date questions finalOutcomes teacher t wfail lt rq
        rwres).log = planRule (fetchExistingResultsFull st sid tname lt) wfail 0 finalOutcomes ∧
    (submitResults st sid sname tname date questions finalOutcomes teacher t wfail lt rq
        rwres).log.length = finalOutcomes.length ∧
    (submitResults st sid sname tname date questions finalOutcomes teacher t wfail lt rq
        rwres).successCount =
      (submitResults st sid sname tname date questions finalOutcomes teacher t wfail lt rq
        rwres).log.countP (fun a => a.ok) ∧
    (submitResults st sid sname tname date questions finalOutcomes teacher t wfail lt rq
        rwres).failCount =
      (submitResults st sid sname tname date questions finalOutcomes teacher t wfail lt rq
        rwres).log.countP (fun a => !a.ok) ∧
    (submitResults st sid sname tname date questions finalOutcomes teacher t wfail lt rq
        rwres).successCount +
      (submitResults st sid sname tname date questions finalOutcomes teacher t wfail lt rq
        rwres).failCount = finalOutcomes.length ∧
    (0 < (submitResults st sid sname tname date questions finalOutcomes teacher t wfail lt rq
        rwres).successCount →
      (submitResults st sid sname tname date questions finalOutcomes teacher t wfail lt rq
        rwres).reportScoreArg =
        some ((finalOutcomes.map (scoreOfEntry (buildQMetaMap questions))).sum)) := by
  have hlog := submitResults_log st sid sname tname date questions finalOutcomes teacher t
    wfail lt rq rwres
  have hsucc := submitResults_success st sid sname tname date questions finalOutcomes teacher t
    wfail lt rq rwres
  have hfail := submitResults_failCnt st sid sname tname date questions finalOutcomes teacher t
    wfail lt rq rwres
  refine ⟨hlog, by rw [hlog, planRule_length], by rw [hlog, hsucc], by rw [hlog, hfail], ?_,
    fun h => submitResults_reportScore st sid sname tname date questions finalOutcomes teacher
      t wfail lt rq rwres h⟩
  rw [hsucc, hfail, countP_ok_add_countP_not_ok, planRule_length]

/-- Witness for C7 (the 2-of-5 example of spec.md §8): five submitted
outcomes, writes 1 and 3 fail, yielding `successCount = 3`,
`failCount = 2`, all five records attempted, and a report score argument
computed from all five submitted outcomes. -/
theorem claim_C7_witness :
    0 < (submitResults emptyStore "s1" "Stu" "T" "d"
      [⟨"q1", "T_1", "1", 1⟩, ⟨"q2", "T_2", "2", 2⟩, ⟨"q3", "T_3", "3", 3⟩,
       ⟨"q4", "T_4", "4", 4⟩, ⟨"q5", "T_5", "5", 5⟩]
      [("q1", Outcome.correct), ("q2", Outcome.correct), ("q3", Outcome.correct),
       ("q4", Outcome.correct), ("q5", Outcome.correct)]
      none 0 (fun i => i == 1 || i == 3) none true RWrite.ok).successCount ∧
    (submitResults emptyStore "s1" "Stu" "T" "d"
      [⟨"q1", "T_1", "1", 1⟩, ⟨"q2", "T_2", "2", 2⟩, ⟨"q3", "T_3", "3", 3⟩,
       ⟨"q4", "T_4", "4", 4⟩, ⟨"q5", "T_5", "5", 5⟩]
      [("q1", Outcome.correct), ("q2", Outcome.correct), ("q3", Outcome.correct),
       ("q4", Outcome.correct), ("q5", Outcome.correct)]
      none 0 (fun i => i == 1 || i == 3) none true RWrite.ok).successCount = 3 ∧
    (submitResults emptyStore "s1" "Stu" "T" "d"
      [⟨"q1", "T_1", "1", 1⟩, ⟨"q2", "T_2", "2", 2⟩, ⟨"q3", "T_3", "3", 3⟩,
       ⟨"q4", "T_4", "4", 4⟩, ⟨"q5", "T_5", "5", 5⟩]
      [("q1", Outcome.correct), ("q2", Outcome.correct), ("q3", Outcome.correct),
       ("q4", Outcome.correct), ("q5", Outcome.correct)]
      none 0 (fun i => i == 1 || i == 3) none true RWrite.ok).failCount = 2 ∧
    (submitResults emptyStore "s1" "Stu" "T" "d"
      [⟨"q1", "T_1", "1", 1⟩, ⟨"q2", "T_2", "2", 2⟩, ⟨"q3", "T_3", "3", 3⟩,
       ⟨"q4", "T_4", "4", 4⟩, ⟨"q5", "T_5", "5", 5⟩]
      [("q1", Outcome.correct), ("q2", Outcome.correct), ("q3", Outcome.correct),
       ("q4", Outcome.correct), ("q5", Outcome.correct)]
      none 0 (fun i => i == 1 || i == 3) none true RWrite.ok).reportScoreArg = some 15 := by
  have h := claim_C7 emptyStore "s1" "Stu" "T" "d"
    [⟨"q1", "T_1", "1", 1⟩, ⟨"q2", "T_2", "2", 2⟩, ⟨"q3", "T_3", "3", 3⟩,
     ⟨"q4", "T_4", "4", 4⟩, ⟨"q5", "T_5", "5", 5⟩]
    [("q1", Outcome.correct), ("q2", Outcome.correct), ("q3", Outcome.correct),
     ("q4", Outcome.correct), ("q5", Outcome.correct)]
    none 0 (fun i => i == 1 || i == 3) none true RWrite.ok
  refine ⟨by decide, by decide, by decide, ?_⟩
  have := h.2.2.2.2.2 (by decide)
  rw [this]
  decide

/-! ### Claim C9 -/

/-- A sample persisted report record used by witnesses. -/
def sampleReport : ReportRecord :=
  { id := 1, title := "Stu - T", studentId := "s1", testName := "T", score := 10,
    status := "1. 입력 완료", examDate := "d0", teacherId := none, timeTaken := some 7 }

/-- Claim C9: a test is timed exactly when its name begins with the
fixed prefixes `"기초"` or `"심화"`; for timed tests the save is
accepted iff `time_taken > 0` (non-timed tests are always accepted);
and every report write includes the `소요시간` field exactly when its
value is positive — when it is 0 the field is omitted, so an update
leaves the previously stored value untouched. -/
theorem claim_C9 (tn : String) (t : Nat) (sid sname : String) (score : Nat)
    (teacher : Option String) (date : String) (rec : ReportRecord) :
    (isTimedTest tn = (pyStartswith tn "기초" || pyStartswith tn "심화")) ∧
    (isTimedTest tn = true → (saveAccepted tn t = true ↔ 0 < t)) ∧
    (isTimedTest tn = false → saveAccepted tn t = true) ∧
    ((buildReportProps sid sname tn score teacher date t).timeTaken = some t ↔ 0 < t) ∧
    (t = 0 →
      (buildReportProps sid sname tn score teacher date t).timeTaken = none ∧
      (applyReportProps rec
        (buildReportProps sid sname tn score teacher date t)).timeTaken = rec.timeTaken) := by
  refine ⟨rfl, ?_, ?_, ?_, ?_⟩
  · intro h
    simp [saveAccepted, h]
    omega
  · intro h
    simp [saveAccepted, h]
  · by_cases ht : t > 0
    · simp [buildReportProps, ht]
    · simp [buildReportProps, ht]
  · intro ht
    subst ht
    exact ⟨by simp [buildReportProps], by simp [applyReportProps, buildReportProps]⟩

/-- Witness for C9: `"기초3회"` is timed, a 30-minute submission is
accepted, a 0-minute one is rejected, the report props carry
`timeTaken = 30`, and with `timeTaken = 0` an update leaves the stored
value (7) untouched. -/
theorem claim_C9_witness :
    isTimedTest "기초3회" = true ∧
    (saveAccepted "기초3회" 30 = true ↔ 0 < 30) ∧
    saveAccepted "기초3회" 0 = false ∧
    ((buildReportProps "s1" "Stu" "기초3회" 10 none "d" 30).timeTaken = some 30 ↔ 0 < 30) ∧
    (applyReportProps sampleReport
      (buildReportProps "s1" "Stu" "기초3회" 10 none "d" 0)).timeTaken = some 7 := by
  have h := claim_C9 "기초3회" 30 "s1" "Stu" 10 none "d" sampleReport
  have h0 := claim_C9 "기초3회" 0 "s1" "Stu" 10 none "d" sampleReport
  exact ⟨by decide, h.2.1 (by decide), by decide, h.2.2.2.1,
    by rw [(h0.2.2.2.2 rfl).2]; decide⟩

/-! ### Claim C4 (corrected) -/

/-- The store of the C4 counterexample: one report already exists for
`("s1", "T")`. -/
def c4Store : Store :=
  { results := [],
    reports := [sampleReport],
    nextId := 2 }

/-- Counterexample to C4 as stated: on the update path
`create_report_entry` never checks the PATCH status (entry_app.py line
329), so when the report write fails with a non-200 response — the
store is provably unchanged, the new score 99 is not persisted — one
notification is still sent instead of zero. -/
theorem claim_C4_cex :
    (createReportEntry c4Store "s1" "Stu" "T" 99 none "d1" 0 true
      RWrite.httpErr).notifications = 1 ∧
    (createReportEntry c4Store "s1" "Stu" "T" 99 none "d1" 0 true
      RWrite.httpErr).store = c4Store := by
  decide

/-- Claim C4 amended: on the create path exactly one notification is
sent iff the create write succeeds; on the update path exactly one
notification is sent iff the PATCH does not raise an exception — a
non-200 status on the update still sends the notification; an exception
on either path sends none; never more than one notification per call. -/
theorem claim_C4_amended (st : Store) (sid sname tname : String) (score : Nat)
    (teacher : Option String) (date : String) (t : Nat) (wres : RWrite) :
    (matchingReports st sid tname = [] →
      ((createReportEntry st sid sname tname score teacher date t true
        wres).notifications = 1 ↔ wres = RWrite.ok)) ∧
    (matchingReports st sid tname ≠ [] →
      ((createReportEntry st sid sname tname score teacher date t true
        wres).notifications = 1 ↔ wres ≠ RWrite.exn)) ∧
    (wres = RWrite.exn →
      (createReportEntry st sid sname tname score teacher date t true
        wres).notifications = 0) ∧
    (createReportEntry st sid sname tname score teacher date t true wres).notifications ≤ 1 := by
  cases hm : matchingReports st sid tname with
  | nil => cases wres <;> simp [createReportEntry, hm]
  | cons r rest => cases wres <;> simp [createReportEntry, hm]

/-- Witness for the amended C4: on an empty store (create path) a
successful write sends exactly one notification and a non-200 one sends
none. -/
theorem claim_C4_witness :
    (createReportEntry emptyStore "s1" "Stu" "T" 10 none "d" 0 true
      RWrite.ok).notifications = 1 ∧
    (createReportEntry emptyStore "s1" "Stu" "T" 10 none "d" 0 true
      RWrite.httpErr).notifications = 0 := by
  have h := claim_C4_amended emptyStore "s1" "Stu" "T" 10 none "d" 0 RWrite.ok
  exact ⟨(h.1 (by decide)).mpr rfl, by decide⟩

/-! ### Claim C2 -/

theorem applyReportProps_id (r : ReportRecord) (p : ReportProps) :
    (applyReportProps r p).id = r.id := rfl

theorem applyReportProps_matches (r : ReportRecord) (sid sname tname : String) (score : Nat)
    (teacher : Option String) (date : String) (t : Nat) :
    (applyReportProps r (buildReportProps sid sname tname score teacher date t)).studentId = sid
    ∧ (applyReportProps r (buildReportProps sid sname tname score teacher date t)).testName
        = tname := by
  simp [applyReportProps, buildReportProps]

theorem createReportEntry_ok_create (st : Store) (sid sname tname : String) (score : Nat)
    (teacher : Option String) (date : String) (t : Nat)
    (hm : matchingReports st sid tname = []) :
    createReportEntry st sid sname tname score teacher date t true RWrite.ok =
      { store := { results := st.results,
                   reports := st.reports ++
                     [{ id := st.nextId, title := sname ++ " - " ++ tname, studentId := sid,
                        testName := tname, score := score, status := "1. 입력 완료",
                        examDate := date, teacherId := teacher,
                        timeTaken := if t > 0 then some t else none }],
                   nextId := st.nextId + 1 },
        notifications := 1 } := by
  simp only [createReportEntry, buildReportProps, hm, if_true, List.head?_nil, Option.map_none']

theorem createReportEntry_ok_update (st : Store) (sid sname tname : String) (score : Nat)
    (teacher : Option String) (date : String) (t : Nat) (r0 : ReportRecord)
    (hm : matchingReports st sid tname = [r0]) :
    createReportEntry st sid sname tname score teacher date t true RWrite.ok =
      { store := { results := st.results,
                   reports := st.reports.map (fun a =>
                     if a.id = r0.id then
                       applyReportProps a (buildReportProps sid sname tname score teacher date t)
                     else a),
                   nextId := st.nextId },
        notifications := 1 } := by
  simp only [createReportEntry, hm, if_true, List.head?_cons, Option.map_some']


/-- Claim C2: after every successful call to the report upsert for
`(studentId, testName)` — the existence query and the single write both
succeeding — exactly one ReportRecord exists for that pair, provided at
most one existed before (which holds for every number of prior
submissions: the conclusion re-establishes the hypothesis, and store
well-formedness is preserved): a found report is updated in place with
no new record created, and when none is found exactly one record is
created, whose title is `"{studentName} - {testName}"`. -/
theorem claim_C2 (st : Store) (sid sname tname : String) (score : Nat)
    (teacher : Option String) (date : String) (t : Nat)
    (hwf : StoreWF st) (hle : (matchingReports st sid tname).length ≤ 1) :
    (matchingReports (createReportEntry st sid sname tname score teacher date t true
        RWrite.ok).store sid tname).length = 1 ∧
    (matchingReports st sid tname = [] →
      (createReportEntry st sid sname tname score teacher date t true
        RWrite.ok).store.reports.length = st.reports.length + 1 ∧
      ∃ nr ∈ (createReportEntry st sid sname tname score teacher date t true
        RWrite.ok).store.reports,
        nr.title = sname ++ " - " ++ tname ∧ nr.studentId = sid ∧ nr.testName = tname) ∧
    (matchingReports st sid tname ≠ [] →
      (createReportEntry st sid sname tname score teacher date t true
        RWrite.ok).store.reports.length = st.reports.length) ∧
    StoreWF (createReportEntry st sid sname tname score teacher date t true RWrite.ok).store := by
  have hmfilter : ∀ stx : Store, matchingReports stx sid tname =
      stx.reports.filter (fun r => decide (r.studentId = sid ∧ r.testName = tname)) :=
    fun _ => rfl
  obtain ⟨hwf₁, hwf₂, hwf₃, hwf₄⟩ := hwf
  cases hm : matchingReports st sid tname with
  | nil =>
      rw [createReportEntry_ok_create st sid sname tname score teacher date t hm]
      dsimp only
      have hm' : st.reports.filter (fun r => decide (r.studentId = sid ∧ r.testName = tname))
          = [] := by rw [← hmfilter]; exact hm
      refine ⟨?_, ?_, ?_, ?_⟩
      · rw [hmfilter]
        dsimp only
        rw [List.filter_append, hm']
        simp
      · intro _
        refine ⟨by simp, ?_⟩
        exact ⟨{ id := st.nextId, title := sname ++ " - " ++ tname, studentId := sid,
                 testName := tname, score := score, status := "1. 입력 완료",
                 examDate := date, teacherId := teacher,
                 timeTaken := if t > 0 then some t else none },
               by simp, rfl, rfl, rfl⟩
      · intro h; exact absurd rfl h
      · refine ⟨hwf₁, ?_, ?_, ?_⟩
        · dsimp only
          rw [List.map_append, List.nodup_append]
          refine ⟨hwf₂, by simp, ?_⟩
          intro a ha hb
          simp at hb
          obtain ⟨r, hr, hrid⟩ := List.mem_map.mp ha
          rw [hb] at hrid
          exact absurd (hrid ▸ hwf₄ r hr) (by omega)
        · intro r hr
          exact Nat.lt_succ_of_lt (hwf₃ r hr)
        · intro r hr
          rcases List.mem_append.mp hr with h | h
          · exact Nat.lt_succ_of_lt (hwf₄ r h)
          · simp at h
            rw [h]
            exact Nat.lt_succ_self _
  | cons r0 rest =>
      have hrest : rest = [] := by
        rw [hm] at hle
        cases rest with
        | nil => rfl
        | cons x xs => simp at hle
      subst hrest
      rw [createReportEntry_ok_update st sid sname tname score teacher date t r0 hm]
      dsimp only
      have hr0 : r0 ∈ st.reports ∧
          (decide (r0.studentId = sid ∧ r0.testName = tname)) = true := by
        have hmem : r0 ∈ matchingReports st sid tname := by
          rw [hm]; exact List.mem_cons_self _ _
        rw [hmfilter] at hmem
        exact List.mem_filter.mp hmem
      have hinj := List.inj_on_of_nodup_map hwf₂
      have hpoint : ∀ a ∈ st.reports,
          (decide ((if a.id = r0.id then
              applyReportProps a (buildReportProps sid sname tname score teacher date t)
            else a).studentId = sid ∧
            (if a.id = r0.id then
              applyReportProps a (buildReportProps sid sname tname score teacher date t)
            else a).testName = tname)) =
          (decide (a.studentId = sid ∧ a.testName = tname)) := by
        intro a ha
        by_cases hid : a.id = r0.id
        · have haeq : a = r0 := hinj ha hr0.1 hid
          subst haeq
          have h2 := hr0.2
          simp only [decide_eq_true_eq] at h2
          simp [applyReportProps, buildReportProps, h2.1, h2.2]
        · simp [if_neg hid]
      have hfid : ∀ a : ReportRecord,
          ((if a.id = r0.id then
            applyReportProps a (buildReportProps sid sname tname score teacher date t)
          else a)).id = a.id := by
        intro a
        by_cases hid : a.id = r0.id <;> simp [hid, applyReportProps_id]
      refine ⟨?_, ?_, ?_, ?_⟩
      · rw [hmfilter]
        dsimp only
        rw [List.filter_map]
        rw [show ((fun r => decide (r.studentId = sid ∧ r.testName = tname)) ∘
            (fun a => if a.id = r0.id then
              applyReportProps a (buildReportProps sid sname tname score teacher date t)
            else a)) = (fun a => decide ((if a.id = r0.id then
              applyReportProps a (buildReportProps sid sname tname score teacher date t)
            else a).studentId = sid ∧ (if a.id = r0.id then
              applyReportProps a (buildReportProps sid sname tname score teacher date t)
            else a).testName = tname)) from rfl]
        rw [List.filter_congr hpoint, List.length_map, ← hmfilter, hm]
        rfl
      · intro h; exact absurd h (List.cons_ne_nil r0 [])
      · intro _
        exact List.length_map _ _
      · refine ⟨hwf₁, ?_, hwf₃, ?_⟩
        · dsimp only
          rw [List.map_map]
          rw [show ((fun r => r.id) ∘ (fun a => if a.id = r0.id then
              applyReportProps a (buildReportProps sid sname tname score teacher date t)
            else a)) = (fun a : ReportRecord => a.id) from funext fun a => hfid a]
          exact hwf₂
        · intro r hr
          obtain ⟨a, ha, haeq⟩ := List.mem_map.mp hr
          rw [← haeq, hfid a]
          exact hwf₄ a ha

/-- Witness for C2: on a store already holding the one matching report
(update path) exactly one report remains afterwards; on the empty store
(create path) exactly one report with the deterministic title is
created. -/
theorem claim_C2_witness :
    (StoreWF c4Store ∧ (matchingReports c4Store "s1" "T").length ≤ 1 ∧
      (matchingReports (createReportEntry c4Store "s1" "Stu" "T" 42 none "d" 0 true
        RWrite.ok).store "s1" "T").length = 1) ∧
    (StoreWF emptyStore ∧ (matchingReports emptyStore "s1" "T").length ≤ 1 ∧
      (matchingReports (createReportEntry emptyStore "s1" "Stu" "T" 42 none "d" 0 true
        RWrite.ok).store "s1" "T").length = 1) := by
  constructor
  · exact ⟨by decide, by decide,
      (claim_C2 c4Store "s1" "Stu" "T" 42 none "d" 0 (by decide) (by decide)).1⟩
  · exact ⟨by decide, by decide,
      (claim_C2 emptyStore "s1" "Stu" "T" 42 none "d" 0 (by decide) (by decide)).1⟩

/-! ### Claim C5 (corrected) -/

/-- The record and store of the C5/C8 witnesses: one persisted result
for student `s1`, question `q1`, test `T`. -/
def c5Rec : ResultRecord :=
  { id := 1, title := "Stu-T-1", studentId := "s1", questionId := "q1",
    testName := "T", outcome := Outcome.correct, examDate := "d0" }

/-- A store holding exactly `c5Rec`. -/
def c5Store : Store := { results := [c5Rec], reports := [], nextId := 2 }

/-- Counterexample to C5 as stated: when loading the existing results
hits a transport error before any record is fetched (`loadTrunc = some
0`), `submit_results` is not aborted — it proceeds with the empty map,
issues (and completes) a create write for `q1`, and the store ends up
with two ResultRecords for the same `(studentId, questionId, testName)`
triple, the duplicate the claim says cannot be created. -/
theorem claim_C5_cex :
    (submitResults c5Store "s1" "Stu" "T" "d" sampleQs [("q1", Outcome.correct)] none 0
      (fun _ => false) (some 0) true RWrite.ok).log =
      [WriteAction.createW "q1" Outcome.correct true] ∧
    ((submitResults c5Store "s1" "Stu" "T" "d" sampleQs [("q1", Outcome.correct)] none 0
      (fun _ => false) (some 0) true RWrite.ok).store.results.filter
        (fun r => decide (r.studentId = "s1" ∧ r.testName = "T" ∧
          r.questionId = "q1"))).length = 2 := by
  decide

/-- Claim C5 amended: when loading the existing results hits a
transport error, the loader returns the map built from the records
fetched before the error (possibly empty) and the submission proceeds
anyway — every submitted record is still attempted against that partial
map (one write per submitted pair, creates for the question ids the
partial map is missing), so creates may duplicate records whose prior
state was not loaded. -/
theorem claim_C5_amended (st : Store) (sid sname tname date : String)
    (questions : List Question) (finalOutcomes : List (String × Outcome))
    (teacher : Option String) (t : Nat) (wfail : Nat → Bool) (k : Nat)
    (rq : Bool) (rwres : RWrite) :
    (submitResults st sid sname tname date questions finalOutcomes teacher t wfail (some k)
        rq rwres).log =
      planRule (buildExistingMap ((matchingResults st sid tname).take k)) wfail 0
        finalOutcomes ∧
    (submitResults st sid sname tname date questions finalOutcomes teacher t wfail (some k)
        rq rwres).log.length = finalOutcomes.length := by
  have h := submitResults_log st sid sname tname date questions finalOutcomes teacher t wfail
    (some k) rq rwres
  exact ⟨h, by rw [h, planRule_length]⟩

/-! ### Claim C8 -/

theorem fetchExisting_get_some {st : Store} {sid tname : String} {lt : Option Nat}
    {q : String} {pid : Nat}
    (h : dictGet (fetchExistingResultsFull st sid tname lt) q = some pid) :
    ∃ r ∈ st.results, r.questionId = q ∧ r.id = pid ∧ r.studentId = sid ∧
      r.testName = tname := by
  have hmem : ∃ r ∈ matchingResults st sid tname, r.questionId = q ∧ r.id = pid := by
    cases lt with
    | none => exact buildExistingMap_get_some h
    | some k =>
        obtain ⟨r, hr, hq, hid⟩ := buildExistingMap_get_some h
        exact ⟨r, List.mem_of_mem_take hr, hq, hid⟩
  obtain ⟨r, hr, hq, hid⟩ := hmem
  have := List.mem_filter.mp hr
  have hpred := of_decide_eq_true this.2
  exact ⟨r, this.1, hq, hid, hpred.1, hpred.2⟩

theorem planRule_map_qid (emap : List (String × Nat)) (wfail : Nat → Bool) :
    ∀ (i : Nat) (l : List (String × Outcome)),
      (planRule emap wfail i l).map WriteAction.qid = l.map Prod.fst := by
  intro i l
  induction l generalizing i with
  | nil => rfl
  | cons p l ih =>
      cases p with
      | mk q o =>
          cases hq : dictGet emap q <;> simp [planRule, hq, WriteAction.qid, ih]

/-- Claim C8: a question id present in the existing map but absent from
the submitted outcomes receives no write — no log entry mentions it —
and its persisted record survives the whole submission completely
unmodified (in particular no deletion and no implicit marking as
Incorrect). -/
theorem claim_C8 (st : Store) (sid sname tname date : String) (questions : List Question)
    (finalOutcomes : List (String × Outcome)) (teacher : Option String) (t : Nat)
    (wfail : Nat → Bool) (lt : Option Nat) (rq : Bool) (rwres : RWrite)
    (hnodup : (st.results.map (fun r => r.id)).Nodup)
    (r : ResultRecord) (hr : r ∈ st.results)
    (hq : r.questionId ∉ finalOutcomes.map Prod.fst) :
    r ∈ (submitResults st sid sname tname date questions finalOutcomes teacher t wfail lt rq
      rwres).store.results ∧
    ∀ a ∈ (submitResults st sid sname tname date questions finalOutcomes teacher t wfail lt rq
      rwres).log, a.qid ≠ r.questionId := by
  have hinj := List.inj_on_of_nodup_map hnodup
  constructor
  · rw [submitResults_results]
    apply submitLoop_untouched
    · intro p hp pid hpid heq
      obtain ⟨r', hr', hq', hid', _, _⟩ := fetchExisting_get_some hpid
      have hrr : r = r' := hinj hr hr' (by rw [hid', heq])
      apply hq
      rw [hrr, hq']
      exact List.mem_map_of_mem Prod.fst hp
    · exact hr
  · intro a ha heq
    rw [submitResults_log] at ha
    have : a.qid ∈ (planRule (fetchExistingResultsFull st sid tname lt) wfail 0
        finalOutcomes).map WriteAction.qid := List.mem_map_of_mem WriteAction.qid ha
    rw [planRule_map_qid] at this
    rw [heq] at this
    exact hq this

/-- Witness for C8: submitting only `q2` leaves the persisted `q1`
record (`c5Rec`) in the store unmodified and issues no write for it. -/
theorem claim_C8_witness :
    ((c5Store.results.map (fun r => r.id)).Nodup ∧ c5Rec ∈ c5Store.results ∧
      c5Rec.questionId ∉ ([("q2", Outcome.incorrect)].map Prod.fst)) ∧
    (c5Rec ∈ (submitResults c5Store "s1" "Stu" "T" "d" sampleQs
        [("q2", Outcome.incorrect)] none 0 (fun _ => false) none true
        RWrite.ok).store.results ∧
      ∀ a ∈ (submitResults c5Store "s1" "Stu" "T" "d" sampleQs
        [("q2", Outcome.incorrect)] none 0 (fun _ => false) none true
        RWrite.ok).log, a.qid ≠ c5Rec.questionId) :=
  ⟨⟨by decide, by decide, by decide⟩,
   claim_C8 c5Store "s1" "Stu" "T" "d" sampleQs [("q2", Outcome.incorrect)] none 0
     (fun _ => false) none true RWrite.ok (by decide) c5Rec (by decide) (by decide)⟩

/-! ### Claim C1 -/

theorem planRule_all_update (emap : List (String × Nat)) (wfail : Nat → Bool) :
    ∀ (l : List (String × Outcome)) (i : Nat),
      (∀ p ∈ l, (dictGet emap p.1).isSome = true) →
      ∀ a ∈ planRule emap wfail i l, a.isUpdate = true := by
  intro l
  induction l with
  | nil => intro i _ a ha; cases ha
  | cons p l ih =>
      intro i hall a ha
      cases p with
      | mk q o =>
          cases hq : dictGet emap q with
          | none =>
              have := hall (q, o) (List.mem_cons_self _ _)
              rw [hq] at this
              cases this
          | some pid =>
              rw [planRule, hq] at ha
              rcases List.mem_cons.mp ha with h | h
              · rw [h]; rfl
              · exact ih (i + 1) (fun p hp => hall p (List.mem_cons_of_mem _ hp)) a h

/-- Claim C1: for every submitted question id, the engine issues an
update to the record id found in the loaded existing map when present
and exactly one create otherwise (one write action per submitted pair,
with pairwise-distinct question ids); consequently, after a fully
successful submission, submitting the same `(studentId, testName,
outcomes)` again produces only in-place updates and leaves the
persisted ResultRecord count unchanged, whatever the second run's
per-write failures. -/
theorem claim_C1 (st : Store) (sid sname tname date₁ date₂ : String)
    (questions : List Question) (finalOutcomes : List (String × Outcome))
    (teacher : Option String) (t : Nat) (rq₁ rq₂ : Bool) (rw₁ rw₂ : RWrite)
    (wfail₂ : Nat → Bool)
    (hkeys : (finalOutcomes.map Prod.fst).Nodup) :
    let run1 := submitResults st sid sname tname date₁ questions finalOutcomes teacher t
      (fun _ => false) none rq₁ rw₁
    let run2 := submitResults run1.store sid sname tname date₂ questions finalOutcomes
      teacher t wfail₂ none rq₂ rw₂
    run1.log = planRule (fetchExistingResultsFull st sid tname none) (fun _ => false) 0
      finalOutcomes ∧
    run1.log.map WriteAction.qid = finalOutcomes.map Prod.fst ∧
    (run1.log.map WriteAction.qid).Nodup ∧
    (∀ a ∈ run2.log, a.isUpdate = true) ∧
    run2.store.results.length = run1.store.results.length := by
  intro run1 run2
  have hlog1 : run1.log = planRule (fetchExistingResultsFull st sid tname none)
      (fun _ => false) 0 finalOutcomes :=
    submitResults_log st sid sname tname date₁ questions finalOutcomes teacher t
      (fun _ => false) none rq₁ rw₁
  have hqids : run1.log.map WriteAction.qid = finalOutcomes.map Prod.fst := by
    rw [hlog1, planRule_map_qid]
  have hcov : ∀ p ∈ finalOutcomes,
      ∃ r ∈ run1.store.results, r.studentId = sid ∧ r.questionId = p.1 ∧
        r.testName = tname := by
    intro p hp
    have hres : run1.store.results =
        (submitLoop (fetchExistingResultsFull st sid tname none) (buildQMetaMap questions)
          sid sname tname date₁ (fun _ => false) 0
          { store := st, successCount := 0, failCount := 0, totalScore := 0, log := [] }
          finalOutcomes).store.results :=
      submitResults_results st sid sname tname date₁ questions finalOutcomes teacher t
        (fun _ => false) none rq₁ rw₁
    rw [hres]
    apply submitLoop_covers (fetchExistingResultsFull st sid tname none)
      (buildQMetaMap questions) sid sname tname date₁ (fun _ => false) (fun _ => rfl)
      finalOutcomes 0 _ ?_ p hp
    intro q pid hpid
    obtain ⟨r, hr, hq', _, hsid, htn⟩ := fetchExisting_get_some hpid
    exact ⟨r, hr, hsid, hq', htn⟩
  have hsome₂ : ∀ p ∈ finalOutcomes,
      (dictGet (fetchExistingResultsFull run1.store sid tname none) p.1).isSome = true := by
    intro p hp
    obtain ⟨r, hr, hsid, hq', htn⟩ := hcov p hp
    have hmem : r ∈ matchingResults run1.store sid tname :=
      List.mem_filter.mpr ⟨hr, decide_eq_true ⟨hsid, htn⟩⟩
    have := buildExistingMap_isSome hmem
    rw [hq'] at this
    exact this
  have hlog2 : run2.log = planRule (fetchExistingResultsFull run1.store sid tname none)
      wfail₂ 0 finalOutcomes :=
    submitResults_log run1.store sid sname tname date₂ questions finalOutcomes teacher t
      wfail₂ none rq₂ rw₂
  refine ⟨hlog1, hqids, by rw [hqids]; exact hkeys, ?_, ?_⟩
  · intro a ha
    rw [hlog2] at ha
    exact planRule_all_update (fetchExistingResultsFull run1.store sid tname none) wfail₂
      finalOutcomes 0 hsome₂ a ha
  · have hres2 : run2.store.results =
        (submitLoop (fetchExistingResultsFull run1.store sid tname none)
          (buildQMetaMap questions) sid sname tname date₂ wfail₂ 0
          { store := run1.store, successCount := 0, failCount := 0, totalScore := 0,
            log := [] } finalOutcomes).store.results :=
      submitResults_results run1.store sid sname tname date₂ questions finalOutcomes teacher
        t wfail₂ none rq₂ rw₂
    rw [hres2, submitLoop_len_isSome]
    exact hsome₂

/-- Witness for C1: one existing `q1` record; submitting outcomes for
`q1` and `q2` (all writes succeeding) and then the same outcomes again
yields a second run consisting solely of updates, with the result-record
count unchanged. -/
theorem claim_C1_witness :
    ([("q1", Outcome.incorrect), ("q2", Outcome.correct)].map Prod.fst).Nodup ∧
    ((submitResults c5Store "s1" "Stu" "T" "d1" sampleQs
        [("q1", Outcome.incorrect), ("q2", Outcome.correct)] none 0 (fun _ => false) none
        true RWrite.ok).log =
      planRule (fetchExistingResultsFull c5Store "s1" "T" none) (fun _ => false) 0
        [("q1", Outcome.incorrect), ("q2", Outcome.correct)] ∧
     ((submitResults c5Store "s1" "Stu" "T" "d1" sampleQs
        [("q1", Outcome.incorrect), ("q2", Outcome.correct)] none 0 (fun _ => false) none
        true RWrite.ok).log.map WriteAction.qid =
      [("q1", Outcome.incorrect), ("q2", Outcome.correct)].map Prod.fst) ∧
     (((submitResults c5Store "s1" "Stu" "T" "d1" sampleQs
        [("q1", Outcome.incorrect), ("q2", Outcome.correct)] none 0 (fun _ => false) none
        true RWrite.ok).log.map WriteAction.qid).Nodup) ∧
     (∀ a ∈ (submitResults (submitResults c5Store "s1" "Stu" "T" "d1" sampleQs
        [("q1", Outcome.incorrect), ("q2", Outcome.correct)] none 0 (fun _ => false) none
        true RWrite.ok).store "s1" "Stu" "T" "d2" sampleQs
        [("q1", Outcome.incorrect), ("q2", Outcome.correct)] none 0 (fun _ => false) none
        true RWrite.ok).log, a.isUpdate = true) ∧
     (submitResults (submitResults c5Store "s1" "Stu" "T" "d1" sampleQs
        [("q1", Outcome.incorrect), ("q2", Outcome.correct)] none 0 (fun _ => false) none
        true RWrite.ok).store "s1" "Stu" "T" "d2" sampleQs
        [("q1", Outcome.incorrect), ("q2", Outcome.correct)] none 0 (fun _ => false) none
        true RWrite.ok).store.results.length =
      (submitResults c5Store "s1" "Stu" "T" "d1" sampleQs
        [("q1", Outcome.incorrect), ("q2", Outcome.correct)] none 0 (fun _ => false) none
        true RWrite.ok).store.results.length) :=
  ⟨by decide,
   claim_C1 c5Store "s1" "Stu" "T" "d1" "d2" sampleQs
     [("q1", Outcome.incorrect), ("q2", Outcome.correct)] none 0 true true RWrite.ok
     RWrite.ok (fun _ => false) (by decide)⟩

/-! ### Claim C10 -/

theorem batchOutcomes_eq_map (mode : BatchMode) (labels : List String)
    (questions : List Question) (hids : (questions.map (fun q => q.id)).Nodup) :
    batchOutcomes mode labels questions =
      questions.map (fun q => (q.id, batchOutcomeFor mode labels q.label)) := by
  unfold batchOutcomes
  have h := foldl_dictInsert_fresh (fun q => batchOutcomeFor mode labels q.label) questions []
    (fun q _ => rfl) hids
  simpa using h

/-- Claim C10: in the two batch input modes every question of the
loaded test is assigned an outcome — the dict built by the batch branch
has exactly the question ids of the test as keys, in order — and a
question whose (canonical) label appears among the parsed input labels
gets Correct in `"Input Correct Numbers"` mode (respectively Incorrect
in `"Input Incorrect Numbers"` mode) while every other question of the
test gets the opposite outcome; hence no question of the test is left
without a submitted outcome. -/
theorem claim_C10 (mode : BatchMode) (text : String) (questions : List Question)
    (hids : (questions.map (fun q => q.id)).Nodup) :
    (batchOutcomes mode (parseInputLabels text) questions).map Prod.fst =
      questions.map (fun q => q.id) ∧
    ∀ q ∈ questions,
      dictGet (batchOutcomes mode (parseInputLabels text) questions) q.id =
        some (match mode with
          | BatchMode.correctNumbers =>
              if q.label ∈ parseInputLabels text then Outcome.correct else Outcome.incorrect
          | BatchMode.incorrectNumbers =>
              if q.label ∈ parseInputLabels text then Outcome.incorrect
              else Outcome.correct) := by
  have hmap := batchOutcomes_eq_map mode (parseInputLabels text) questions hids
  have hkeys : (batchOutcomes mode (parseInputLabels text) questions).map Prod.fst =
      questions.map (fun q => q.id) := by
    rw [hmap, List.map_map]
    rfl
  refine ⟨hkeys, ?_⟩
  intro q hq
  have hmem : (q.id, batchOutcomeFor mode (parseInputLabels text) q.label) ∈
      batchOutcomes mode (parseInputLabels text) questions := by
    rw [hmap]
    exact List.mem_map_of_mem (fun q => (q.id, batchOutcomeFor mode (parseInputLabels text)
      q.label)) hq
  have hget := dictGet_of_mem_nodup _ _ _ (by rw [hkeys]; exact hids) hmem
  cases mode <;> exact hget

/-- Witness for C10: with raw input `"03, 1-1"` (note `"03"`
canonicalized to `"3"`) in Correct-numbers mode, the questions labelled
`"3"` and `"1-1"` get Correct and the question labelled `"2"` gets
Incorrect; the key list is exactly the test's question ids. -/
theorem claim_C10_witness :
    (([{ id := "qa", title := "T_1-1", label := "1-1", score := 1 },
       { id := "qb", title := "T_02", label := "2", score := 1 },
       { id := "qc", title := "T_03", label := "3", score := 1 }] :
        List Question).map (fun q => q.id)).Nodup ∧
    ((batchOutcomes BatchMode.correctNumbers (parseInputLabels "03, 1-1")
        [{ id := "qa", title := "T_1-1", label := "1-1", score := 1 },
         { id := "qb", title := "T_02", label := "2", score := 1 },
         { id := "qc", title := "T_03", label := "3", score := 1 }]).map Prod.fst =
      ([{ id := "qa", title := "T_1-1", label := "1-1", score := 1 },
        { id := "qb", title := "T_02", label := "2", score := 1 },
        { id := "qc", title := "T_03", label := "3", score := 1 }] :
         List Question).map (fun q => q.id)) ∧
    dictGet (batchOutcomes BatchMode.correctNumbers (parseInputLabels "03, 1-1")
        [{ id := "qa", title := "T_1-1", label := "1-1", score := 1 },
         { id := "qb", title := "T_02", label := "2", score := 1 },
         { id := "qc", title := "T_03", label := "3", score := 1 }]) "qa" =
      some Outcome.correct ∧
    dictGet (batchOutcomes BatchMode.correctNumbers (parseInputLabels "03, 1-1")
        [{ id := "qa", title := "T_1-1", label := "1-1", score := 1 },
         { id := "qb", title := "T_02", label := "2", score := 1 },
         { id := "qc", title := "T_03", label := "3", score := 1 }]) "qb" =
      some Outcome.incorrect ∧
    dictGet (batchOutcomes BatchMode.correctNumbers (parseInputLabels "03, 1-1")
        [{ id := "qa", title := "T_1-1", label := "1-1", score := 1 },
         { id := "qb", title := "T_02", label := "2", score := 1 },
         { id := "qc", title := "T_03", label := "3", score := 1 }]) "qc" =
      some Outcome.correct := by
  have h := claim_C10 BatchMode.correctNumbers "03, 1-1"
    [{ id := "qa", title := "T_1-1", label := "1-1", score := 1 },
     { id := "qb", title := "T_02", label := "2", score := 1 },
     { id := "qc", title := "T_03", label := "3", score := 1 }] (by decide)
  exact ⟨by decide, h.1, by decide, by decide, by decide⟩
